import Mathlib

/-
Verification development for the htmeta HTML emitter
(crates `htmeta` and `htmeta-template`).

The definitions below shallowly embed the Rust sources:
  * `src/htmeta/src/lib.rs`      — `Vars`, `HtmlEmitter` (walker + tag emitter)
  * `src/htmeta/src/plugins.rs`  — the plugin protocol
  * `src/htmeta-template/src/lib.rs` — the `TemplatePlugin`

Machine-level conventions:
  * `Cow<str>` / `Box<str>` are plain `String`s.
  * `HashMap` becomes an association list whose most recent insertion
    shadows older entries (matching `HashMap::insert` overwrite
    semantics); `Rc` copy-on-write sharing is ordinary value semantics.
  * Writing to the `Writer` sink becomes returning the emitted `String`.
  * Rust functions that can fail return `Except EmitErr`.
  * The engine carries a fuel argument: the Rust recursion has no
    structural bound (template instantiation may diverge), so each
    nesting level consumes one unit of fuel and exhaustion is the
    distinguished error `EmitErr.fuel`.
-/

namespace Htmeta

/-- Error type, modelling `htmeta::Error` (src/htmeta/src/error.rs).
Only `UserError { message }` is reachable in the embedded fragment, kept
as `user`.  `fuel` marks exhaustion of the embedding's recursion fuel
(no Rust counterpart: the Rust recursion is unbounded).  `fileSystem`
marks the `import`/`include` paths, whose file-system access (an
external collaborator per the spec) is outside this embedding. -/
inductive EmitErr where
  | user (message : String)
  | fuel
  | fileSystem
  deriving DecidableEq

/-- Scalar values, modelling `kdl::KdlValue` (kdl v6): `String`,
`Integer`, `Bool`, `Null`.  Floats are omitted; no claim involves them. -/
inductive KValue where
  | str (s : String)
  | int (i : Int)
  | bool (b : Bool)
  | null
  deriving DecidableEq

/-- Display of a `KdlValue` as used by `to_string()` in the sources.
For non-strings this follows kdl v6 (`3`, `#true`, `#false`, `#null`).
For strings, kdl renders bare-identifier strings without quotes; the
sources only ever call `to_string` on identifier-like strings (parameter
names in `@params`) or feed the result into the un-inspected `props`
text, so the quoting of non-identifier strings is abstracted away. -/
def kdlValueDisplay : KValue → String
  | .str s => s
  | .int i => toString i
  | .bool b => if b then "#true" else "#false"
  | .null => "#null"

/-- KdlValue::as_string. -/
def valueAsString : KValue → Option String
  | .str s => some s
  | _ => none

/-- Variable environment, modelling `Vars` (src/htmeta/src/lib.rs:132-206):
a `HashMap<Box<str>, Cow<str>>` behind an `Rc`.  Represented as an
association list where the most recently inserted pair shadows older
ones. -/
abbrev Vars := List (String × String)

/-- Vars lookup (`Vars::get`): first (most recent) binding wins. -/
def varGet : Vars → String → Option String
  | [], _ => none
  | (k, val) :: rest, key => if k = key then some val else varGet rest key

/-- Lookup defaulting to the empty string, as in
`self.vars.get(capture).map(Cow::as_ref).unwrap_or_default()`. -/
def varGetD (v : Vars) (key : String) : String := (varGet v key).getD ""

/-- Vars insertion (`Vars::insert`): overwrites any previous binding. -/
def varInsert (v : Vars) (key val : String) : Vars := (key, val) :: v

/-- Extend with a batch of bindings (`Vars: Extend` impl); later pairs in
the batch overwrite earlier ones, as for `HashMap::extend`. -/
def varExtend (v : Vars) (kvs : List (String × String)) : Vars :=
  kvs.foldl (fun acc kv => varInsert acc kv.1 kv.2) v

/-- Word characters of the regex class `\w` in `\$(\$|\w+)`
(src/htmeta/src/lib.rs:146).  ASCII approximation: alphanumerics and
underscore; every variable name exercised by the sources is ASCII. -/
def isWordChar (c : Char) : Bool := c.isAlphanum || c = '_'

/-- Scanner state for `expandGo`.  `dollar`: a `$` has just been read;
`word acc`: reading the `\w+` variable name `acc` after a `$`. -/
inductive ExpSt where
  | normal
  | dollar
  | word (acc : List Char)

/-- One step of the expansion scanner: output produced by consuming `c`
in state `st`, and the successor state. -/
def expStep (v : Vars) (st : ExpSt) (c : Char) : List Char × ExpSt :=
  match st with
  | .normal => if c = '$' then ([], .dollar) else ([c], .normal)
  | .dollar =>
    if c = '$' then (['$'], .normal)
    else if isWordChar c then ([], .word [c])
    else (['$', c], .normal)
  | .word acc =>
    if isWordChar c then ([], .word (acc ++ [c]))
    else if c = '$' then ((varGetD v (String.mk acc)).data, .dollar)
    else ((varGetD v (String.mk acc)).data ++ [c], .normal)

/-- Flush the scanner state at end of input. -/
def expFinish (v : Vars) : ExpSt → List Char
  | .normal => []
  | .dollar => ['$']
  | .word acc => (varGetD v (String.mk acc)).data

/-- Left-to-right scan driving `expStep`. -/
def expandGo (v : Vars) (st : ExpSt) : List Char → List Char
  | [] => expFinish v st
  | c :: cs =>
    let p := expStep v st c
    p.1 ++ expandGo v p.2 cs

/-- Vars::expand_string (src/htmeta/src/lib.rs:145-158):
`VAR.replace_all(text, ..)` with the regex `\$(\$|\w+)`.  The scanner is
the left-to-right single pass of `Regex::replace_all`: at each `$` the
alternation first tries `$$` (replaced by a literal `$`, no lookup),
otherwise takes the greedy maximal `\w+` name (replaced by the binding,
empty if unbound); a `$` followed by neither stays literal.  Replacement
text is spliced verbatim, never rescanned.  Total: expansion cannot
fail. -/
def expandString (v : Vars) (s : String) : String :=
  String.mk (expandGo v .normal s.data)

/-- Vars::expand_value (src/htmeta/src/lib.rs:162-167): strings are
expanded, any other scalar is stringified directly. -/
def expandValue (v : Vars) : KValue → String
  | .str content => expandString v content
  | rest => kdlValueDisplay rest

/-- Escape of one character under `html_escape::encode_text`, which
replaces exactly `&`, `<` and `>`. -/
def escapeChar (c : Char) : List Char :=
  if c = '&' then "&amp;".data
  else if c = '<' then "&lt;".data
  else if c = '>' then "&gt;".data
  else [c]

/-- Text escaping used by `emit_text_node`
(src/htmeta/src/lib.rs:433-442), modelling `html_escape::encode_text`. -/
def htmlEscape (s : String) : String :=
  String.mk (s.data.foldr (fun c acc => escapeChar c ++ acc) [])

/-- One node entry, modelling `kdl::KdlEntry`: an optional property name
and a value.  `name = none` is a positional argument. -/
structure KEntry where
  name : Option String
  value : KValue
  deriving DecidableEq

mutual
/-- A source-tree node, modelling `kdl::KdlNode`: name, ordered entries,
captured leading whitespace (`node.format().leading`, used only by the
follow-original-indent mode) and an optional children block
(`KdlDocument`). -/
inductive KNode where
  | mk (name : String) (entries : List KEntry) (leading : String)
       (children : Option KNodes)
/-- A node list (`KdlDocument` body / `children().nodes()`), as its own
inductive so that mutual structural recursion over the tree is
available. -/
inductive KNodes where
  | nil
  | cons (hd : KNode) (tl : KNodes)
end

def KNode.name : KNode → String
  | .mk n _ _ _ => n

def KNode.entries : KNode → List KEntry
  | .mk _ es _ _ => es

def KNode.leading : KNode → String
  | .mk _ _ ld _ => ld

def KNode.children : KNode → Option KNodes
  | .mk _ _ _ cs => cs

/-- Convert an ordinary list of nodes into the mutual list type. -/
def KNodes.ofList : List KNode → KNodes
  | [] => .nil
  | n :: rest => .cons n (KNodes.ofList rest)

/-- Concatenation of node lists (used by the children splice). -/
def knAppend : KNodes → KNodes → KNodes
  | .nil, ys => ys
  | .cons x xs, ys => .cons x (knAppend xs ys)

/-- Positional argument values of a node, modelling the `args()`
extension (src/htmeta-template/src/utils.rs:49-54): entries without a
name, in order. -/
def nodeArgs (n : KNode) : List KValue :=
  n.entries.filterMap (fun e => match e.name with
    | none => some e.value
    | some _ => none)

/-- KdlNode::get with an integer key (kdl v6): the i-th positional
argument.  Only index 0 is used by the sources. -/
def nodeGet0 (n : KNode) : Option KValue := (nodeArgs n).head?

/-- KdlNode::get with a string key (kdl v6): the value of the named
property. -/
def nodeGetProp (n : KNode) (key : String) : Option KValue :=
  (n.entries.filterMap (fun e =>
    if e.name = some key then some e.value else none)).head?

/-- The command name of a node name: `strip_prefix('@')`
(src/htmeta-template/src/utils.rs:43-45). -/
def commandName (s : String) : Option String :=
  match s.data with
  | [] => none
  | c :: rest => if c = '@' then some (String.mk rest) else none

def nodeCommandName (n : KNode) : Option String := commandName n.name

/-- KdlNode::is_command (src/htmeta-template/src/utils.rs:46-48). -/
def isCommand (n : KNode) (c : String) : Bool :=
  nodeCommandName n = some c

/-- The `name.starts_with("$")` test of the walker's variable-node case
(src/htmeta/src/lib.rs:454-463). -/
def startsWithDollar (s : String) : Bool :=
  match s.data with
  | [] => false
  | c :: _ => c = '$' 

/-- The `&name[1..]` byte slice dropping the one-byte `$` sigil. -/
def stringTail (s : String) : String := String.mk s.data.tail

mutual
/-- Subtree search, modelling `find` in src/htmeta-template/src/lib.rs:
`filter(node) || node.iter_children().any(|n| find(n, filter))`. -/
def findNode (p : KNode → Bool) : KNode → Bool
  | .mk nm es ld cs => p (.mk nm es ld cs) || findOptNodes p cs
def findOptNodes (p : KNode → Bool) : Option KNodes → Bool
  | none => false
  | some l => findNodes p l
def findNodes (p : KNode → Bool) : KNodes → Bool
  | .nil => false
  | .cons c rest => findNode p c || findNodes p rest
end

mutual
/-- Children-splice rewrite, modelling the `for_each_mut` call in
`emit_template` (src/htmeta-template/src/lib.rs:131-143): in every
children list of the tree, each `@children` node is replaced by the
call-site children `repl` and every other node is rewritten recursively.
The Rust traversal is top-down and in place; it also visits the spliced
copies, but `emit_template` only ever splices after rejecting call sites
whose subtree contains an `@children` marker, so the spliced copies are
marker-free and the in-place traversal leaves them unchanged — exactly
this function.  (Were `repl` to contain a marker the Rust loop would
never terminate, a state unreachable behind the guard.) -/
def spliceNode (repl : KNodes) : KNode → KNode
  | .mk nm es ld none => .mk nm es ld none
  | .mk nm es ld (some cs) => .mk nm es ld (some (spliceNodes repl cs))
def spliceNodes (repl : KNodes) : KNodes → KNodes
  | .nil => .nil
  | .cons c rest =>
    if isCommand c "children" then knAppend repl (spliceNodes repl rest)
    else .cons (spliceNode repl c) (spliceNodes repl rest)
end

/-- KdlDocument::remove_child (src/htmeta-template/src/utils.rs:18-24):
remove and return the first node whose name equals `key`. -/
def removeChildNamed (key : String) : KNodes → Option (KNode × KNodes)
  | .nil => none
  | .cons n rest =>
    if n.name = key then some (n, rest)
    else match removeChildNamed key rest with
      | none => none
      | some (m, rest') => some (m, .cons n rest')

/-- The entry stream of `keyed_entries`
(src/htmeta-template/src/utils.rs:62-72): properties keep their key,
positional arguments are numbered `0`, `1`, … by a counter that only
positional entries advance. -/
def keyedEntriesFrom : Nat → List KEntry → List (String × KValue)
  | _, [] => []
  | i, e :: rest =>
    match e.name with
    | some k => (k, e.value) :: keyedEntriesFrom i rest
    | none => (toString i, e.value) :: keyedEntriesFrom (i + 1) rest

def keyedEntries (n : KNode) : List (String × KValue) :=
  keyedEntriesFrom 0 n.entries

/-- Rendering of one `KdlEntry` by `to_string()`, used only to build the
`props` text in `emit_template`.  The kdl library reproduces the
original source formatting of the entry here (including its leading
whitespace, quoting, …); that presentation detail is abstracted to
`name=value` / `value`.  No theorem below inspects this rendering. -/
def entryToString (e : KEntry) : String :=
  match e.name with
  | some n => n ++ "=" ++ kdlValueDisplay e.value
  | none => kdlValueDisplay e.value

/-- Space-separated join (the `.join(" ")` building `props`). -/
def joinSep (sep : String) : List String → String
  | [] => ""
  | [x] => x
  | x :: y :: rest => x ++ sep ++ joinSep sep (y :: rest)

/-- A registered template, modelling `Template`
(src/htmeta-template/src/lib.rs:12-17): the captured node (children =
body, `@params` already removed), the `uses_children` flag and the
declared parameter names. -/
structure Template where
  node : KNode
  usesChildren : Bool
  params : List String

/-- Template::new (src/htmeta-template/src/lib.rs:49-64): requires a
children block; removes an optional `@params` child from the body and
takes its positional arguments (stringified) as the parameter list
(note: a keyed `@params` entry such as `name="World"` is a property,
not an argument, and contributes no parameter); records whether the
remaining node's subtree contains an `@children` marker. -/
def Template.new (name : String) (node : KNode) : Except EmitErr Template :=
  match node with
  | .mk _ _ _ none =>
    .error (.user (name ++ ": Template tags must have children!"))
  | .mk nm es ld (some children) =>
    let pr := removeChildNamed "@params" children
    let params : List String :=
      match pr with
      | some (pnode, _) => (nodeArgs pnode).map kdlValueDisplay
      | none => []
    let children' := match pr with
      | some (_, rest) => rest
      | none => children
    let node' : KNode := .mk nm es ld (some children')
    .ok { node := node'
          usesChildren := findNode (fun n => isCommand n "children") node'
          params := params }

/-- Template::is_param (src/htmeta-template/src/lib.rs:65-67). -/
def Template.isParam (t : Template) (key : String) : Bool :=
  t.params.contains key

/-- The template registry (`TemplatePlugin.templates`,
`HashMap<String, Template>`), again as a shadowing association list. -/
abbrev Templates := List (String × Template)

def templatesGet : Templates → String → Option Template
  | [], _ => none
  | (k, t) :: rest, key => if k = key then some t else templatesGet rest key

def templatesInsert (ts : Templates) (key : String) (t : Template) :
    Templates := (key, t) :: ts

/-- The fixed void-element set `VOID_TAGS`
(src/htmeta/src/lib.rs:71-74). -/
def voidTags : List String :=
  ["area", "base", "br", "col", "embed", "hr", "img", "input", "link",
   "meta", "param", "source", "track", "wbr", "!DOCTYPE", "!doctype"]

/-- Emitter state, modelling `HtmlEmitter` (src/htmeta/src/lib.rs:245-259)
with its single plugin specialized to the `TemplatePlugin`, whose state
(the template registry) is inlined as `templates`.  The `filename` field
is omitted: it is only read by the unmodelled `import`/`include` paths. -/
structure TEmitter where
  indent : Option Nat
  level : Nat
  vars : Vars
  templates : Templates

/-- The builder default (`HtmlEmitterBuilder::new` then `build`):
four-space indentation, depth 0, no variables, no templates. -/
def defaultEmitter : TEmitter :=
  { indent := some 4, level := 0, vars := [], templates := [] }

def spaces (n : Nat) : String := String.mk (List.replicate n ' ')

/-- HtmlEmitter::indent (src/htmeta/src/lib.rs:301-309): fixed
indentation repeats spaces per level; follow-original mode takes the
node's captured leading whitespace. -/
def indentOf (em : TEmitter) (n : KNode) : String :=
  match em.indent with
  | some k => spaces (em.level * k)
  | none => n.leading

/-- HtmlEmitter::is_minify (src/htmeta/src/lib.rs:280-282). -/
def isMinify (em : TEmitter) : Bool := em.indent = some 0

/-- HtmlEmitter::write_line (src/htmeta/src/lib.rs:285-290) as the
string it appends. -/
def lineOf (em : TEmitter) : String := if isMinify em then "" else "\n"

/-- HtmlEmitter::subemitter (src/htmeta/src/lib.rs:271-277): a clone one
level deeper. -/
def subemitter (em : TEmitter) : TEmitter := { em with level := em.level + 1 }

/-- The attribute loop of `emit_tag` (src/htmeta/src/lib.rs:356-369):
each entry's value is expanded; an empty expansion is skipped entirely
(`continue` before the separating space); otherwise a space then either
`name="value"` (name also expanded) or the bare value. -/
def attrsString (v : Vars) : List KEntry → String
  | [] => ""
  | e :: rest =>
    let value := expandValue v e.value
    (if value = "" then ""
     else " " ++ (match e.name with
       | some n => expandString v n ++ "=\"" ++ value ++ "\""
       | none => value)) ++ attrsString v rest

/-- The contents-extraction test of `emit_tag`
(src/htmeta/src/lib.rs:350): `matches!(entries.last(), Some(entry) if
entry.name().is_none())`. -/
def lastIsUnnamed (es : List KEntry) : Bool :=
  match es.getLast? with
  | some e => e.name.isNone
  | none => false

/-- HtmlEmitter::emit_text_node (src/htmeta/src/lib.rs:433-442):
indent, HTML-escaped expanded content, newline. -/
def emitTextNode (em : TEmitter) (ind : String) (content : KValue) : String :=
  ind ++ htmlEscape (expandValue em.vars content) ++ lineOf em

/-- HtmlEmitter::emit_raw_text (src/htmeta/src/lib.rs:448-452):
indent, expanded content verbatim, newline. -/
def emitRawText (em : TEmitter) (ind : String) (content : KValue) : String :=
  ind ++ expandValue em.vars content ++ lineOf em

/-- Rendering of the environment for the `@dbg` command's
`format!("{:#?}", vars)` (src/htmeta-template/src/lib.rs:250-257).  The
exact `Debug` formatting is abstracted; no theorem inspects it. -/
def varsDump (v : Vars) : String :=
  joinSep ", " (v.map (fun kv => kv.1 ++ ": " ++ kv.2))

/-- The synthetic `code` node built by the `@dbg` command. -/
def debugNode (em : TEmitter) : KNode :=
  .mk "code" [⟨none, .str (varsDump em.vars)⟩] "" none

/-- HtmlEmitter::emit_tag (src/htmeta/src/lib.rs:328-391), parameterized
by the child-document emitter (`subemitter().emit`) so the whole engine
can be tied by a single fuel recursion.  Void tag with a children block
errors; otherwise: for a non-void node with no children whose last entry
is positional, that entry becomes the inline contents (no escaping in
the source); attributes are rendered; void closes immediately; contents
are written between the tags; otherwise children are emitted one level
deeper between newline-separated tags. -/
def emitTagGo (emitChildren : TEmitter → KNodes → Except EmitErr (String × TEmitter))
    (em : TEmitter) (node : KNode) (name : String) (ind : String) :
    Except EmitErr String :=
  let isVoid := voidTags.contains name
  if isVoid && node.children.isSome then
    .error (.user "Void tags can\x27t have children")
  else
    let entries := node.entries
    let contents : Option KEntry :=
      if !isVoid && node.children.isNone && lastIsUnnamed entries then
        entries.getLast?
      else none
    let attrEntries :=
      if !isVoid && node.children.isNone && lastIsUnnamed entries then
        entries.dropLast
      else entries
    let opening := ind ++ "<" ++ name ++ attrsString em.vars attrEntries
    if isVoid then .ok (opening ++ ">" ++ lineOf em)
    else
      match contents with
      | some e =>
        .ok (opening ++ ">" ++ expandValue em.vars e.value ++ "</" ++ name
             ++ ">" ++ lineOf em)
      | none =>
        match node.children with
        | some doc => do
          let r ← emitChildren (subemitter em) doc
          .ok (opening ++ ">" ++ lineOf em ++ r.1 ++ ind ++ "</" ++ name
               ++ ">" ++ lineOf em)
        | none => .ok (opening ++ ">" ++ "</" ++ name ++ ">" ++ lineOf em)

/-- The iteration loop of the `@for` command
(src/htmeta-template/src/lib.rs:273-277): for each value, clone the
context emitter, bind the loop name to the value expanded in that
clone's (= the caller's) environment, and emit the body; outputs are
concatenated, the caller's emitter is untouched. -/
def forIterGo (emitChildren : TEmitter → KNodes → Except EmitErr (String × TEmitter))
    (em : TEmitter) (name : String) (body : KNodes) :
    List KValue → Except EmitErr String
  | [] => .ok ""
  | v :: vs => do
    let r ← emitChildren
      { em with vars := varInsert em.vars name (expandValue em.vars v) } body
    let s2 ← forIterGo emitChildren em name body vs
    .ok (r.1 ++ s2)

/-- The `@for` command handler (src/htmeta-template/src/lib.rs:258-279):
first argument is the binding name (must be a string), second must be
the literal string `in`, a children block is required; the remaining
arguments are iterated literally, in order. -/
def emitForGo (emitChildren : TEmitter → KNodes → Except EmitErr (String × TEmitter))
    (em : TEmitter) (node : KNode) : Except EmitErr String :=
  match nodeArgs node with
  | [] => .error (.user "for: can\x27t iterate without binding name")
  | nameV :: rest =>
    match valueAsString nameV with
    | none => .error (.user "for: expected binding name to be a String")
    | some name =>
      match rest with
      | [] => .error (.user "for: expected `in` keyword after binding name")
      | inV :: vals =>
        if valueAsString inV = some "in" then
          match node.children with
          | some body => forIterGo emitChildren em name body vals
          | none => .error (.user "for: expected `for` node to have children")
        else .error (.user "for: expected `in` keyword after binding name")

/-- TemplatePlugin::emit_template (src/htmeta-template/src/lib.rs:80-152):
reject a call with children when the template does not use children;
reject when the call's own subtree contains an `@children` marker (the
infinite-recursion guard); otherwise clone the emitter, bind every
call-site entry (`keyed_entries`: positional as `0`, `1`, …, keyed by
name, values expanded in the caller's environment), bind `props` to the
joined text of keyed entries that are not declared parameters, splice
the call-site children over every `@children` marker of a clone of the
template node, and emit that clone's children with the bound
sub-emitter, discarding its final state. -/
def emitTemplateGo (emitChildren : TEmitter → KNodes → Except EmitErr (String × TEmitter))
    (em : TEmitter) (name : String) (t : Template) (node : KNode) :
    Except EmitErr String :=
  if node.children.isSome && !t.usesChildren then
    .error (.user (name ++ ": Template was called with children but does not support it!"))
  else if findNode (fun n => isCommand n "children") node then
    .error (.user (name ++ ": Template children contain @children. Infinite recursion detected."))
  else
    let tchildren := (node.children).getD .nil
    let vars1 := varExtend em.vars
      ((keyedEntries node).map (fun kv => (kv.1, expandValue em.vars kv.2)))
    let props := joinSep " " (node.entries.filterMap (fun e =>
      match e.name with
      | none => none
      | some nm => if t.isParam nm then none else some (entryToString e)))
    let sub := { em with vars := varInsert vars1 "props" props }
    let tnode := spliceNode tchildren t.node
    (emitChildren sub ((tnode.children).getD .nil)).map Prod.fst

/-- TemplatePlugin::execute_command_mut
(src/htmeta-template/src/lib.rs:156-229): `@children` is reserved;
`@template` registers a template under its expanded `name` argument or
property; `@import`/`@include` read files — file-system access is an
external collaborator (spec §6) and is not modelled, so those paths stop
at the distinguished `fileSystem` error; anything else is an unexpected
tag. -/
def executeCommandMut (em : TEmitter) (command : String) (node : KNode) :
    Except EmitErr TEmitter :=
  if command = "children" then
    .error (.user "@children is a reserved name.")
  else if command = "template" then
    match (nodeGet0 node).or (nodeGetProp node "name") with
    | none =>
      .error (.user (command ++ ": Template tags must have a `name` parameter!"))
    | some v =>
      let tname := expandValue em.vars v
      match Template.new tname node with
      | .error e => .error e
      | .ok t => .ok { em with templates := templatesInsert em.templates tname t }
  else if command = "import" ∨ command = "include" then
    .error .fileSystem
  else .error (.user ("Unexpected tag: " ++ command))

/-- The plugin dispatch for one node, combining
`HtmlEmitter::call_plugin` (src/htmeta/src/lib.rs:393-416) with
`TemplatePlugin::should_emit` / `emit_node` / `emit_node_mut`
(src/htmeta-template/src/lib.rs:232-296) for the one registered plugin.
`should_emit`: no `@` command name is `Skip` (fall through to
`emit_tag`); `import`/`template`/`include` are `EmitMut`; `dbg`/`for`
are `Emit`; any other command name is `Emit` when registered as a
template, else `Skip`.  The `Emit` arm passes the emitter read-only, so
the walker state is returned unchanged.  The `EmitMut` arm is modelled
from the spec (§4.3: the first non-Skip plugin claims the node and
`EmitMut` triggers the mutable call on that same plugin): the `match` in
the `call_plugin` of src covers only `Skip` and `Emit` and is missing
this arm. -/
def emitPluginOrTag (emitChildren : TEmitter → KNodes → Except EmitErr (String × TEmitter))
    (em : TEmitter) (node : KNode) (ind : String) :
    Except EmitErr (String × TEmitter) :=
  match commandName node.name with
  | some c =>
    if c = "import" ∨ c = "template" ∨ c = "include" then
      (executeCommandMut em c node).map (fun em' => ("", em'))
    else if c = "dbg" then
      (emitTagGo emitChildren em (debugNode em) "code" ind).map (fun s => (s, em))
    else if c = "for" then
      (emitForGo emitChildren em node).map (fun s => (s, em))
    else
      match templatesGet em.templates c with
      | some t => (emitTemplateGo emitChildren em c t node).map (fun s => (s, em))
      | none => (emitTagGo emitChildren em node node.name ind).map (fun s => (s, em))
  | none => (emitTagGo emitChildren em node node.name ind).map (fun s => (s, em))

/-- One iteration of the walker loop in `HtmlEmitter::emit`
(src/htmeta/src/lib.rs:484-521): a `$name` node with a first positional
argument binds a variable (no output); `_` writes raw expanded text;
`-`/`text` write escaped text (the `text` alias additionally prints a
deprecation warning to stderr, a side effect outside the embedding);
otherwise plugin dispatch falls back to plain tag emission. -/
def emitNode1Go (emitChildren : TEmitter → KNodes → Except EmitErr (String × TEmitter))
    (em : TEmitter) (node : KNode) : Except EmitErr (String × TEmitter) :=
  match nodeGet0 node with
  | some v =>
    if startsWithDollar node.name then
      .ok ("", { em with
        vars := varInsert em.vars (stringTail node.name) (expandValue em.vars v) })
    else if node.name = "_" then
      .ok (emitRawText em (indentOf em node) v, em)
    else if node.name = "-" ∨ node.name = "text" then
      .ok (emitTextNode em (indentOf em node) v, em)
    else emitPluginOrTag emitChildren em node (indentOf em node)
  | none => emitPluginOrTag emitChildren em node (indentOf em node)

/-- The sibling fold of `HtmlEmitter::emit`: process the nodes in order,
threading the emitter state (the environment is not cleared between
siblings) and concatenating output. -/
def goNodes (step : TEmitter → KNode → Except EmitErr (String × TEmitter)) :
    TEmitter → KNodes → Except EmitErr (String × TEmitter)
  | em, .nil => .ok ("", em)
  | em, .cons n rest => do
    let (s, em') ← step em n
    let (s2, em'') ← goNodes step em' rest
    .ok (s ++ s2, em'')

/-- The tied engine: one unit of fuel per document-nesting level. -/
def emitRec : Nat → TEmitter → KNodes → Except EmitErr (String × TEmitter)
  | 0, _, _ => .error .fuel
  | fuel + 1, em, ns => goNodes (emitNode1Go (emitRec fuel)) em ns

/-- HtmlEmitter::emit at a given fuel: emits a document, returning the
output and the final emitter state (which `emit` does not clear). -/
def emitNodes (fuel : Nat) (em : TEmitter) (doc : KNodes) :
    Except EmitErr (String × TEmitter) := emitRec fuel em doc

/-- One walker iteration at a given fuel. -/
def emitNode1 (fuel : Nat) : TEmitter → KNode → Except EmitErr (String × TEmitter) :=
  emitNode1Go (emitRec fuel)

/-- emit_tag at a given fuel. -/
def emitTag (fuel : Nat) : TEmitter → KNode → String → String → Except EmitErr String :=
  emitTagGo (emitRec fuel)

/-- emit_template at a given fuel. -/
def emitTemplate (fuel : Nat) :
    TEmitter → String → Template → KNode → Except EmitErr String :=
  emitTemplateGo (emitRec fuel)

/-- The `@for` handler at a given fuel. -/
def emitFor (fuel : Nat) : TEmitter → KNode → Except EmitErr String :=
  emitForGo (emitRec fuel)

/-- HtmlEmitter::clear (src/htmeta/src/lib.rs:523-529): empties the
variable environment (`Vars::clear`) and resets the plugins — for the
template plugin, an emptied registry (the plugin-level reset is dispatch
through a trait method not present in src/htmeta/src/plugins.rs;
modelled from the method's doc comment "Clears all variables and resets
plugins").  `emit` itself never calls this. -/
def clearEmitter (em : TEmitter) : TEmitter :=
  { em with vars := [], templates := [] }

/-- The plugin status enum `EmitStatus`
(src/htmeta/src/plugins.rs:17-21). -/
inductive EmitStatus where
  | Skip
  | Emit
  | EmitMut
  deriving DecidableEq

/-- The emitter state visible to a plugin through `PluginContext`
(src/htmeta/src/plugins.rs:8-15), for the generic dispatch model of
`call_plugin`: indentation configuration, depth and variables.  (The
plugin list itself is not part of this view, which keeps the plugin
record non-recursive; no claim concerns a plugin editing the plugin
list.) -/
structure EView where
  indent : Option Nat
  level : Nat
  vars : Vars
  deriving DecidableEq

/-- A plugin as seen by the dispatch loop, modelling the `IPlugin` trait
object (src/htmeta/src/plugins.rs:24-32) with state type `σ`:
`should_emit` is a pure predicate on the node and a read-only emitter
view; `emit_node` receives a read-only emitter handle and can only
produce output; `emit_node_mut` receives an exclusive handle and may
also update its own state and the emitter view. -/
structure APlugin (σ : Type) where
  state : σ
  shouldEmit : σ → KNode → EView → EmitStatus
  emitNode : σ → KNode → String → EView → Except EmitErr String
  emitNodeMut : σ → KNode → String → EView → Except EmitErr (String × σ × EView)

/-- HtmlEmitter::call_plugin (src/htmeta/src/lib.rs:393-416) over an
arbitrary plugin list: ask each plugin's `should_emit` in registration
order; `Skip` continues to the next plugin; `Emit` calls that plugin's
`emit_node` with the read-only handle and stops (plugin list and
emitter view unchanged); `EmitMut` calls `emit_node_mut` on that same
plugin with the exclusive handle and stops, keeping its updated state
in place.  Returns `none` when no plugin claims the node (the walker
then falls back to `emit_tag`).  The `Skip` and `Emit` arms are from
src; the `EmitMut` arm is modelled from the spec (§4.3), the `match` in
src covering only `Skip` and `Emit`. -/
def callPlugin {σ : Type} (e : EView) (ind : String) (node : KNode) :
    List (APlugin σ) → Except EmitErr (Option (String × List (APlugin σ) × EView))
  | [] => .ok none
  | p :: ps =>
    match p.shouldEmit p.state node e with
    | .Skip =>
      (callPlugin e ind node ps).map (fun r =>
        r.map (fun x => (x.1, p :: x.2.1, x.2.2)))
    | .Emit =>
      (p.emitNode p.state node ind e).map (fun out => some (out, p :: ps, e))
    | .EmitMut =>
      (p.emitNodeMut p.state node ind e).map (fun r =>
        some (r.1, { p with state := r.2.1 } :: ps, r.2.2))

/-! Concrete fixtures used by the claim theorems.  KDL source is shown in
each doc comment; nodes are written directly in the embedded syntax. -/

/-- The node `$x "1"` (a variable-binding node). -/
def varNodeX : KNode := .mk "$x" [⟨none, .str "1"⟩] "" none

/-- The node `p "$x"`. -/
def pOfX : KNode := .mk "p" [⟨none, .str "$x"⟩] "" none

/-- The node `p "a<b"`. -/
def pEscNode : KNode := .mk "p" [⟨none, .str "a<b"⟩] "" none

/-- The node `p "hi" { span "x" }` — inline text *and* children. -/
def mixedNode : KNode :=
  .mk "p" [⟨none, .str "hi"⟩] ""
    (some (.ofList [.mk "span" [⟨none, .str "x"⟩] "" none]))

/-- The node `br { }` — a void tag with a (empty) children block. -/
def brWithChildren : KNode := .mk "br" [] "" (some .nil)

/-- The node
`@template "greet" { @params name="World"; p "Hello, $name!" }`. -/
def tDefGreet : KNode :=
  .mk "@template" [⟨none, .str "greet"⟩] ""
    (some (.ofList
      [.mk "@params" [⟨some "name", .str "World"⟩] "" none,
       .mk "p" [⟨none, .str "Hello, $name!"⟩] "" none]))

/-- The call `@greet` (no entries, no children). -/
def callGreet0 : KNode := .mk "@greet" [] "" none

/-- The call `@greet name="Rust"`. -/
def callGreetRust : KNode :=
  .mk "@greet" [⟨some "name", .str "Rust"⟩] "" none

/-- The node `@template "show" { p "$0|$k|$1" }`. -/
def tDefShow : KNode :=
  .mk "@template" [⟨none, .str "show"⟩] ""
    (some (.ofList [.mk "p" [⟨none, .str "$0|$k|$1"⟩] "" none]))

/-- The call `@show "a" k="b" "c"` (mixed positional and keyed). -/
def callShow : KNode :=
  .mk "@show"
    [⟨none, .str "a"⟩, ⟨some "k", .str "b"⟩, ⟨none, .str "c"⟩] "" none

/-- The node `@template "box" { div { @children } }` — a template whose
body uses the children splice. -/
def tDefBox : KNode :=
  .mk "@template" [⟨none, .str "box"⟩] ""
    (some (.ofList
      [.mk "div" [] "" (some (.ofList [.mk "@children" [] "" none]))]))

/-- The call `@box` without children. -/
def callBox0 : KNode := .mk "@box" [] "" none

/-- The call `@box { @children }` — a call site whose own subtree
contains the splice marker. -/
def callBoxMarker : KNode :=
  .mk "@box" [] "" (some (.ofList [.mk "@children" [] "" none]))

/-- The node `@template "leaf" { p "x" }` — no children support. -/
def tDefLeaf : KNode :=
  .mk "@template" [⟨none, .str "leaf"⟩] ""
    (some (.ofList [.mk "p" [⟨none, .str "x"⟩] "" none]))

/-- The call `@leaf { span "y" }` — supplies children. -/
def callLeafChildren : KNode :=
  .mk "@leaf" [] "" (some (.ofList [.mk "span" [⟨none, .str "y"⟩] "" none]))

/-- The node `@for "i" "in" "a" { span "$i" }`. -/
def forLitA : KNode :=
  .mk "@for" [⟨none, .str "i"⟩, ⟨none, .str "in"⟩, ⟨none, .str "a"⟩] ""
    (some (.ofList [.mk "span" [⟨none, .str "$i"⟩] "" none]))

/-- The node `@for "x" "in" 1 2 3 { span "$x" }`. -/
def forLit123 : KNode :=
  .mk "@for"
    [⟨none, .str "x"⟩, ⟨none, .str "in"⟩,
     ⟨none, .int 1⟩, ⟨none, .int 2⟩, ⟨none, .int 3⟩] ""
    (some (.ofList [.mk "span" [⟨none, .str "$x"⟩] "" none]))

/-- The node `@for "i" "in" "@range" 3 { span "$i" }`. -/
def forRangeNode : KNode :=
  .mk "@for"
    [⟨none, .str "i"⟩, ⟨none, .str "in"⟩,
     ⟨none, .str "@range"⟩, ⟨none, .int 3⟩] ""
    (some (.ofList [.mk "span" [⟨none, .str "$i"⟩] "" none]))

/-- A `div` carrying an empty-expanding keyed entry, an empty-expanding
positional entry (unbound `$u`) and inline text:
`div id="" "$u" "x"`. -/
def divSuppressed : KNode :=
  .mk "div"
    [⟨some "id", .str ""⟩, ⟨none, .str "$u"⟩, ⟨none, .str "x"⟩] "" none

/-! Shared helper lemmas. -/

theorem string_empty_append (s : String) : "" ++ s = s := rfl

theorem exceptMap_map {ε α β γ : Type} (f : α → β) (g : β → γ)
    (x : Except ε α) : (x.map f).map g = x.map (fun a => g (f a)) := by
  cases x <;> rfl

/-- In the `normal` state the scanner copies any character other than
`$` through unchanged. -/
theorem expandGo_no_dollar (v : Vars) :
    ∀ cs : List Char, (∀ c ∈ cs, c ≠ '$') → expandGo v .normal cs = cs := by
  intro cs
  induction cs with
  | nil => intro _; rfl
  | cons c cs ih =>
    intro h
    have hc : c ≠ '$' := h c (List.mem_cons_self c cs)
    simp only [expandGo, expStep, if_neg hc]
    exact congrArg (c :: ·) (ih (fun d hd => h d (List.mem_cons_of_mem c hd)))

/-- Reading a maximal word run in the `word` state accumulates the name
and then splices the binding verbatim, resuming the normal scan on the
remainder. -/
theorem expandGo_word (v : Vars) :
    ∀ (w acc rest : List Char),
      (∀ c ∈ w, isWordChar c = true) →
      (∀ c, rest.head? = some c → isWordChar c = false) →
      expandGo v (.word acc) (w ++ rest)
        = (varGetD v (String.mk (acc ++ w))).data ++ expandGo v .normal rest := by
  intro w
  induction w with
  | nil =>
    intro acc rest _ hmax
    match rest with
    | [] => simp [expandGo, expFinish]
    | c :: cs =>
      have hc : isWordChar c = false := hmax c rfl
      by_cases hdol : c = '$'
      · subst hdol
        simp [expandGo, expStep, hc]
      · simp [expandGo, expStep, hc, hdol]
  | cons a w' ih =>
    intro acc rest hw hmax
    have ha : isWordChar a = true := hw a (List.mem_cons_self a w')
    have step : expandGo v (.word acc) ((a :: w') ++ rest)
        = expandGo v (.word (acc ++ [a])) (w' ++ rest) := by
      simp [expandGo, expStep, ha]
    rw [step, ih (acc ++ [a]) rest
      (fun c hc => hw c (List.mem_cons_of_mem a hc)) hmax]
    simp

/-! Claim theorems. -/

/-- C1: `Vars::expand_string` replaces every `$name` occurrence by the
current binding of `name` (the empty string when `name` is unbound);
the two-character escape `$$` becomes a single literal `$` with no
lookup; the pass is a single left-to-right scan and the spliced value
is not rescanned (final conjunct: a binding whose value itself looks
like a variable reference comes out verbatim); a string containing no
`$` is returned unchanged.  Expansion is a total function (the Rust
signature returns `Cow<str>`, not `Result`), so it never errors. -/
theorem C1_expand_string (v : Vars) :
    (∀ s : String, (∀ c ∈ s.data, c ≠ '$') → expandString v s = s)
    ∧ (∀ cs : List Char,
        expandGo v .normal ('$' :: '$' :: cs) = '$' :: expandGo v .normal cs)
    ∧ (∀ (name rest : List Char), name ≠ [] →
        (∀ c ∈ name, isWordChar c = true) →
        (∀ c, rest.head? = some c → isWordChar c = false) →
        expandGo v .normal ('$' :: (name ++ rest))
          = (varGetD v (String.mk name)).data ++ expandGo v .normal rest)
    ∧ expandString [("a", "$b"), ("b", "c")] "$a" = "$b" := by
  refine ⟨?_, ?_, ?_, rfl⟩
  · intro s h
    show String.mk (expandGo v .normal s.data) = s
    rw [expandGo_no_dollar v s.data h]
  · intro cs
    rfl
  · intro name rest hne hw hmax
    match name, hne with
    | a :: w', _ =>
      have ha : isWordChar a = true := hw a (List.mem_cons_self a w')
      have hadol : a ≠ '$' := by
        intro h
        rw [h] at ha
        exact absurd ha (by decide)
      have step : expandGo v .normal ('$' :: ((a :: w') ++ rest))
          = expandGo v (.word [a]) (w' ++ rest) := by
        simp [expandGo, expStep, ha, hadol]
      rw [step, expandGo_word v w' [a] rest
        (fun c hc => hw c (List.mem_cons_of_mem a hc)) hmax]
      simp

/-- Witness for C1 at concrete inputs. -/
theorem C1_expand_string_witness :
    expandString [("x", "1")] "hello" = "hello"
    ∧ expandGo [("x", "1")] .normal ('$' :: '$' :: ['x'])
        = '$' :: expandGo [("x", "1")] .normal ['x']
    ∧ expandGo [("x", "1")] .normal ('$' :: (['x'] ++ [' ']))
        = (varGetD [("x", "1")] (String.mk ['x'])).data
          ++ expandGo [("x", "1")] .normal [' ']
    ∧ expandString [("a", "$b"), ("b", "c")] "$a" = "$b" :=
  ⟨(C1_expand_string [("x", "1")]).1 "hello" (by decide),
   (C1_expand_string [("x", "1")]).2.1 ['x'],
   (C1_expand_string [("x", "1")]).2.2.1 ['x'] [' '] (by decide)
     (by decide) (by intro c hc; cases hc; decide),
   (C1_expand_string []).2.2.2⟩

/-- C2: the dispatch loop of `call_plugin` tries each registered
plugin's `should_emit` in registration order; the first plugin answering
other than `Skip` claims the node and dispatch stops there (the plugins
after it are returned untouched and never consulted).  A claim of `Emit`
invokes that plugin's `emit_node` with the read-only handle: the plugin
list and the emitter view come back unchanged.  A claim of `EmitMut`
invokes `emit_node_mut` on that same plugin with the exclusive handle:
its updated state replaces it in place and the updated emitter view is
returned. -/
theorem C2_plugin_dispatch {σ : Type} (ps₁ ps₂ : List (APlugin σ)) (p : APlugin σ)
    (e : EView) (ind : String) (node : KNode)
    (hskip : ∀ q ∈ ps₁, q.shouldEmit q.state node e = .Skip) :
    (p.shouldEmit p.state node e = .Emit →
      callPlugin e ind node (ps₁ ++ p :: ps₂)
        = (p.emitNode p.state node ind e).map
            (fun out => some (out, ps₁ ++ p :: ps₂, e)))
    ∧ (p.shouldEmit p.state node e = .EmitMut →
      callPlugin e ind node (ps₁ ++ p :: ps₂)
        = (p.emitNodeMut p.state node ind e).map
            (fun r => some (r.1, ps₁ ++ { p with state := r.2.1 } :: ps₂, r.2.2))) := by
  induction ps₁ with
  | nil =>
    constructor
    · intro h
      show callPlugin e ind node (p :: ps₂) = _
      rw [callPlugin, h]
      simp
    · intro h
      show callPlugin e ind node (p :: ps₂) = _
      rw [callPlugin, h]
      simp
  | cons q qs ih =>
    have hq : q.shouldEmit q.state node e = .Skip :=
      hskip q (List.mem_cons_self q qs)
    have ihh := ih (fun r hr => hskip r (List.mem_cons_of_mem q hr))
    constructor
    · intro h
      show callPlugin e ind node (q :: (qs ++ p :: ps₂)) = _
      rw [callPlugin, hq, ihh.1 h, exceptMap_map]
      rfl
    · intro h
      show callPlugin e ind node (q :: (qs ++ p :: ps₂)) = _
      rw [callPlugin, hq, ihh.2 h, exceptMap_map]
      rfl

/-- A plain `div` node used by the plugin-dispatch witness. -/
def nodeDivPlain : KNode := .mk "div" [] "" none

/-- A plugin that always skips. -/
def skipPlug : APlugin Nat where
  state := 0
  shouldEmit := fun _ _ _ => .Skip
  emitNode := fun _ _ _ _ => .ok "skip-out"
  emitNodeMut := fun st _ _ e => .ok ("skip-mut", st, e)

/-- A plugin that always claims with `Emit`. -/
def emitPlug : APlugin Nat where
  state := 1
  shouldEmit := fun _ _ _ => .Emit
  emitNode := fun _ _ _ _ => .ok "E"
  emitNodeMut := fun st _ _ e => .ok ("EM", st, e)

/-- A plugin that always claims with `EmitMut`, bumping its state. -/
def mutPlug : APlugin Nat where
  state := 2
  shouldEmit := fun _ _ _ => .EmitMut
  emitNode := fun _ _ _ _ => .ok "M"
  emitNodeMut := fun st _ _ e => .ok ("MM", st + 1, e)

/-- The default emitter's view, for the dispatch witness. -/
def eView0 : EView := { indent := some 4, level := 0, vars := [] }

/-- Witness for C2: with a skipping plugin registered first, the
`Emit`-claiming plugin in the middle wins and the plugin after it is
untouched. -/
theorem C2_plugin_dispatch_witness :
    callPlugin eView0 "" nodeDivPlain ([skipPlug] ++ emitPlug :: [mutPlug])
      = (emitPlug.emitNode emitPlug.state nodeDivPlain "" eView0).map
          (fun out => some (out, [skipPlug] ++ emitPlug :: [mutPlug], eView0)) :=
  (C2_plugin_dispatch [skipPlug] [mutPlug] emitPlug eView0 "" nodeDivPlain
    (by intro q hq; rw [List.mem_singleton.mp hq]; rfl)).1 rfl

/-- C3 counterexample: for the template
`@template "greet" { @params name="World"; p "Hello, $name!" }`, calling
`@greet` with no entries emits `<p>Hello, !</p>` (plus newline), not the
claimed `<p>Hello, World!</p>`: the keyed `@params` entry
`name="World"` is a property, not a positional argument, so
`Template::new` records no parameter and `emit_template` binds no
default — `$name` expands to the empty string. -/
theorem C3_counterexample :
    (emitNodes 10 defaultEmitter (.ofList [tDefGreet, callGreet0])).map Prod.fst
      = .ok "<p>Hello, !</p>\n"
    ∧ "<p>Hello, !</p>\n" ≠ "<p>Hello, World!</p>" :=
  ⟨rfl, by decide⟩

/-- C3 amended: template instantiation binds only the call-site entries
(positional entries as consecutive integer-named variables `0`, `1`, …
— the counter advanced only by positional entries — and keyed entries
under their own names, values expanded in the caller's environment);
declared parameter defaults are never bound (a keyed `@params` entry
contributes no parameter at all).  Hence `@greet name="Rust"` emits
`<p>Hello, Rust!</p>` plus newline, while `@greet` with no entries
emits `<p>Hello, !</p>` plus newline. -/
theorem C3_amended :
    (emitNodes 10 defaultEmitter (.ofList [tDefGreet, callGreetRust])).map Prod.fst
      = .ok "<p>Hello, Rust!</p>\n"
    ∧ (emitNodes 10 defaultEmitter (.ofList [tDefGreet, callGreet0])).map Prod.fst
      = .ok "<p>Hello, !</p>\n"
    ∧ (emitNodes 10 defaultEmitter (.ofList [tDefShow, callShow])).map Prod.fst
      = .ok "<p>a|b|c</p>\n"
    ∧ keyedEntries callShow
      = [("0", .str "a"), ("k", .str "b"), ("1", .str "c")] :=
  ⟨rfl, rfl, rfl, rfl⟩

/-- The children-splice marker vanishes when the replacement is empty:
with no call-site children, `spliceNodes .nil` deletes every `@children`
node from a children list. -/
theorem spliceNodes_nil_marker (m : KNode) (hm : isCommand m "children" = true) :
    ∀ (pre post : KNodes),
      spliceNodes .nil (knAppend pre (.cons m post))
        = spliceNodes .nil (knAppend pre post)
  | .nil, post => by
    simp [knAppend, spliceNodes, hm]
  | .cons hd tl, post => by
    simp only [knAppend, spliceNodes]
    rw [spliceNodes_nil_marker m hm tl post]

/-- The template used in the C4 witness: `leaf` does not support
children. -/
def leafTemplate : Template where
  node := .mk "@template" [⟨none, .str "leaf"⟩] ""
    (some (.ofList [.mk "p" [⟨none, .str "x"⟩] "" none]))
  usesChildren := false
  params := []

/-- The template used in the C4 witness: `box` supports children. -/
def boxTemplate : Template where
  node := .mk "@template" [⟨none, .str "box"⟩] ""
    (some (.ofList
      [.mk "div" [] "" (some (.ofList [.mk "@children" [] "" none]))]))
  usesChildren := true
  params := []

/-- C4: template instantiation rejects a call that supplies children
when the template's `uses_children` flag is false; rejects a call whose
own subtree contains an `@children` splice marker with the
infinite-recursion error; and when children support is declared but the
call supplies no children, every splice marker in the body is replaced
by nothing (the empty-replacement splice deletes each marker) and
emission succeeds, as on the concrete `@template "box" { div {
@children } }` called without children. -/
theorem C4_template_children_guards :
    (∀ (fuel : Nat) (em : TEmitter) (name : String) (t : Template) (node : KNode),
      node.children.isSome = true → t.usesChildren = false →
      emitTemplate fuel em name t node
        = .error (.user (name ++ ": Template was called with children but does not support it!")))
    ∧ (∀ (fuel : Nat) (em : TEmitter) (name : String) (t : Template) (node : KNode),
      t.usesChildren = true →
      findNode (fun n => isCommand n "children") node = true →
      emitTemplate fuel em name t node
        = .error (.user (name ++ ": Template children contain @children. Infinite recursion detected.")))
    ∧ (∀ (m : KNode) (pre post : KNodes), isCommand m "children" = true →
      spliceNodes .nil (knAppend pre (.cons m post))
        = spliceNodes .nil (knAppend pre post))
    ∧ (emitNodes 10 defaultEmitter (.ofList [tDefBox, callBox0])).map Prod.fst
      = .ok "<div>\n</div>\n" := by
  refine ⟨?_, ?_, ?_, rfl⟩
  · intro fuel em name t node h1 h2
    simp [emitTemplate, emitTemplateGo, h1, h2]
  · intro fuel em name t node h1 h2
    simp [emitTemplate, emitTemplateGo, h1, h2]
  · intro m pre post hm
    exact spliceNodes_nil_marker m hm pre post

/-- Witness for C4 on concrete templates and call sites. -/
theorem C4_template_children_guards_witness :
    emitTemplate 5 defaultEmitter "leaf" leafTemplate callLeafChildren
      = .error (.user "leaf: Template was called with children but does not support it!")
    ∧ emitTemplate 5 defaultEmitter "box" boxTemplate callBoxMarker
      = .error (.user "box: Template children contain @children. Infinite recursion detected.")
    ∧ spliceNodes .nil (knAppend .nil (.cons (.mk "@children" [] "" none) .nil))
      = spliceNodes .nil (knAppend .nil .nil) :=
  ⟨C4_template_children_guards.1 5 defaultEmitter "leaf" leafTemplate
     callLeafChildren rfl rfl,
   C4_template_children_guards.2.1 5 defaultEmitter "box" boxTemplate
     callBoxMarker rfl rfl,
   C4_template_children_guards.2.2.1 (.mk "@children" [] "" none) .nil .nil rfl⟩

/-- C5 counterexample: at the node `p "a<b"` (one unnamed string entry,
no children) with the default four-space indentation, `emit_tag`
produces `<p>a<b</p>` plus a newline — the inline contents are written
by `expand_value` with no HTML escaping (src/htmeta/src/lib.rs:378) —
whereas the claim asserts exactly `<p>` ++ HTML-escaped text ++ `</p>`,
which here is `<p>a&lt;b</p>` with no trailing newline. -/
theorem C5_counterexample :
    emitTag 5 defaultEmitter pEscNode "p" "" = .ok "<p>a<b</p>\n"
    ∧ "<p>a<b</p>\n"
      ≠ "<p>" ++ htmlEscape (expandString [] "a<b") ++ "</p>" :=
  ⟨rfl, by decide⟩

/-- C5 amended: when a non-void node with no children block has a
trailing positional entry, that entry is written between the opening and
closing tags as inline text content, variable-expanded but *not*
HTML-escaped; under the default indentation the output is exactly
`indent<name attrs>expanded-text</name>` followed by a newline. -/
theorem C5_amended (fuel : Nat) (em : TEmitter) (name ind ld : String)
    (init : List KEntry) (s : String)
    (hvoid : voidTags.contains name = false)
    (hind : em.indent = some 4) :
    emitTag fuel em (.mk name (init ++ [⟨none, .str s⟩]) ld none) name ind
      = .ok (ind ++ "<" ++ name ++ attrsString em.vars init ++ ">"
             ++ expandString em.vars s ++ "</" ++ name ++ ">" ++ "\n") := by
  have hline : lineOf em = "\n" := by simp [lineOf, isMinify, hind]
  have hv : name ∉ voidTags := by simpa using hvoid
  simp [emitTag, emitTagGo, hv, lastIsUnnamed, List.getLast?_concat,
        List.dropLast_concat, KNode.children, KNode.entries, expandValue, hline]

/-- Witness for C5 at the node `p "a"`. -/
theorem C5_amended_witness :
    emitTag 1 defaultEmitter (.mk "p" ([] ++ [⟨none, .str "a"⟩]) "" none) "p" ""
      = .ok ("" ++ "<" ++ "p" ++ attrsString defaultEmitter.vars [] ++ ">"
             ++ expandString defaultEmitter.vars "a" ++ "</" ++ "p" ++ ">" ++ "\n") :=
  C5_amended 1 defaultEmitter "p" "" "" [] "a" rfl rfl

/-- C6: evaluating `emit_tag` at the two claimed error cases.  A void
tag (`br`) with a children block is indeed the hard error.  But the node
`p "hi" { span "x" }`, which carries both a trailing positional entry
and a children block, does *not* error: because the node has children,
the contents-extraction condition (src/htmeta/src/lib.rs:348-354) is
false and the trailing string entry is rendered as a bare attribute
instead, yielding `<p hi>…</p>` — although the test suite declares
`auto_html_test_fail!(fail_mixed_text)` (src/htmeta/src/tests.rs:18),
i.e. the crate's own tests expect mixed text to fail. -/
theorem C6_code_evaluation :
    emitTag 5 defaultEmitter brWithChildren "br" ""
      = .error (.user "Void tags can\x27t have children")
    ∧ emitTag 5 defaultEmitter mixedNode "p" ""
      = .ok "<p hi>\n    <span>x</span>\n</p>\n" :=
  ⟨rfl, rfl⟩

/-- C7 counterexample: `@for "i" "in" "@range" 3 { span "$i" }` does not
generate the range 1..3: the dispatched `FOR` handler
(src/htmeta-template/src/lib.rs:258-279) iterates its argument list
literally, so it emits two spans containing `@range` and `3`; the claim
expects three spans `1`, `2`, `3`. -/
theorem C7_counterexample :
    (emitNodes 10 defaultEmitter (.ofList [forRangeNode])).map Prod.fst
      = .ok "<span>@range</span>\n<span>3</span>\n"
    ∧ "<span>@range</span>\n<span>3</span>\n"
      ≠ "<span>1</span>\n<span>2</span>\n<span>3</span>\n" :=
  ⟨rfl, by decide⟩

/-- C7 amended: `for name in args { body }` takes the binding name and
the literal `in` keyword and then iterates the remaining argument list
*literally*: each value is bound to `name` (expanded in the caller's
environment) in a forked clone of the caller's emitter and the body is
emitted once per value, in argument order.  There is no range
generation: the `@range` marker is iterated as an ordinary literal
value (`parse_range` in src/htmeta-template/src/expr.rs is not wired
into the dispatched handler), so `for i in @range 3 { span "$i" }`
emits spans `@range` and `3`, while the literal `for x in 1 2 3 { span
"$x" }` emits three spans `1`, `2`, `3`. -/
theorem C7_amended :
    (∀ (fuel : Nat) (em : TEmitter) (name ld : String) (vals : List KValue)
       (body : KNodes),
      emitFor fuel em
        (.mk "@for"
          (⟨none, .str name⟩ :: ⟨none, .str "in"⟩
            :: vals.map (fun v => ⟨none, v⟩)) ld (some body))
        = forIterGo (emitRec fuel) em name body vals)
    ∧ (∀ (fuel : Nat) (em : TEmitter) (name : String) (body : KNodes)
       (v : KValue) (vs : List KValue),
      forIterGo (emitRec fuel) em name body (v :: vs) = do
        let r ← emitRec fuel
          { em with vars := varInsert em.vars name (expandValue em.vars v) } body
        let s2 ← forIterGo (emitRec fuel) em name body vs
        .ok (r.1 ++ s2))
    ∧ (emitNodes 10 defaultEmitter (.ofList [forLit123])).map Prod.fst
      = .ok "<span>1</span>\n<span>2</span>\n<span>3</span>\n"
    ∧ (emitNodes 10 defaultEmitter (.ofList [forRangeNode])).map Prod.fst
      = .ok "<span>@range</span>\n<span>3</span>\n" := by
  refine ⟨?_, fun _ _ _ _ _ _ => rfl, rfl, rfl⟩
  intro fuel em name ld vals body
  have hargs : nodeArgs
      (.mk "@for"
        (⟨none, .str name⟩ :: ⟨none, .str "in"⟩
          :: vals.map (fun v => ⟨none, v⟩)) ld (some body))
      = .str name :: .str "in" :: vals := by
    simp [nodeArgs, KNode.entries, List.filterMap_map]
    exact List.filterMap_some vals
  simp [emitFor, emitForGo, hargs, valueAsString, KNode.children]
/-- A node with a command name has `@` as first character. -/
theorem commandName_data {s c : String} (h : commandName s = some c) :
    s.data = '@' :: c.data := by
  unfold commandName at h
  cases hd : s.data with
  | nil => rw [hd] at h; cases h
  | cons ch rest =>
    rw [hd] at h
    have h' : (if ch = '@' then some (String.mk rest) else none) = some c := h
    by_cases hc : ch = '@'
    · rw [if_pos hc] at h'
      have h2 : String.mk rest = c := Option.some.inj h'
      rw [hc, ← h2]
    · rw [if_neg hc] at h'; cases h'

/-- A command node's name does not start with the variable sigil. -/
theorem startsWithDollar_of_command {s c : String}
    (h : commandName s = some c) : startsWithDollar s = false := by
  unfold startsWithDollar
  rw [commandName_data h]
  rfl

/-- Extracting the state component from an `Emit`-style dispatch result:
the emitter placed alongside the output is the one returned. -/
theorem mapSnd_ok (x : Except EmitErr String) (em em' : TEmitter) (out : String)
    (h : x.map (fun s => (s, em)) = .ok (out, em')) : em' = em := by
  cases x with
  | error e => simp [Except.map] at h
  | ok s =>
    simp [Except.map] at h
    exact h.2.symm

/-- Any walker step that is not a variable binding and not an `EmitMut`
command returns the emitter unchanged: the raw/escaped text nodes and
every `Emit`-dispatched or plain-tag path pass the emitter read-only. -/
theorem emitNode1Go_state
    (ec : TEmitter → KNodes → Except EmitErr (String × TEmitter))
    (em : TEmitter) (node : KNode) (out : String) (em' : TEmitter)
    (hdol : startsWithDollar node.name = false)
    (hmut : ∀ c, commandName node.name = some c →
      ¬(c = "import" ∨ c = "template" ∨ c = "include"))
    (h : emitNode1Go ec em node = .ok (out, em')) : em' = em := by
  have hplug : ∀ (ind : String),
      emitPluginOrTag ec em node ind = .ok (out, em') → em' = em := by
    intro ind hh
    unfold emitPluginOrTag at hh
    split at hh
    next c hcn =>
      rw [if_neg (hmut c hcn)] at hh
      by_cases hdbg : c = "dbg"
      · rw [if_pos hdbg] at hh
        exact mapSnd_ok _ _ _ _ hh
      · rw [if_neg hdbg] at hh
        by_cases hfor : c = "for"
        · rw [if_pos hfor] at hh
          exact mapSnd_ok _ _ _ _ hh
        · rw [if_neg hfor] at hh
          cases ht : templatesGet em.templates c with
          | some t => rw [ht] at hh; exact mapSnd_ok _ _ _ _ hh
          | none => rw [ht] at hh; exact mapSnd_ok _ _ _ _ hh
    next hcn =>
      exact mapSnd_ok _ _ _ _ hh
  unfold emitNode1Go at h
  split at h
  next v hg =>
    rw [hdol] at h
    simp only [Bool.false_eq_true, if_false] at h
    by_cases hu : node.name = "_"
    · rw [if_pos hu] at h
      simp at h
      exact h.2.symm
    · rw [if_neg hu] at h
      by_cases htx : node.name = "-" ∨ node.name = "text"
      · rw [if_pos htx] at h
        simp at h
        exact h.2.symm
      · rw [if_neg htx] at h
        exact hplug _ h
  next hg =>
    exact hplug _ h

/-- C8: scope isolation.  A `@for` node, an instantiation of a
registered template, or a plain tag (whose children are emitted through
a forked sub-emitter) leaves the walker's emitter — in particular its
variable environment — exactly as it was, whatever bindings the nested
emission performed; the closed conjunct runs `@for "i" "in" "a" { span
"$i" }` followed by `p "$i"`: the loop body sees `i` bound while the
following sibling does not, and the final emitter equals the initial
one. -/
theorem C8_scope_isolation :
    (∀ (fuel : Nat) (em : TEmitter) (node : KNode) (out : String) (em' : TEmitter),
      node.name = "@for" →
      emitNode1 fuel em node = .ok (out, em') → em' = em)
    ∧ (∀ (fuel : Nat) (em : TEmitter) (node : KNode) (out : String)
        (em' : TEmitter) (c : String) (t : Template),
      nodeCommandName node = some c →
      c ≠ "import" → c ≠ "template" → c ≠ "include" →
      templatesGet em.templates c = some t →
      emitNode1 fuel em node = .ok (out, em') → em' = em)
    ∧ (∀ (fuel : Nat) (em : TEmitter) (node : KNode) (out : String) (em' : TEmitter),
      nodeCommandName node = none →
      startsWithDollar node.name = false →
      emitNode1 fuel em node = .ok (out, em') → em' = em)
    ∧ emitNodes 10 defaultEmitter (.ofList [forLitA, pOfX])
      = .ok ("<span>a</span>\n<p></p>\n", defaultEmitter) := by
  refine ⟨?_, ?_, ?_, rfl⟩
  · intro fuel em node out em' hname h
    have hdol : startsWithDollar node.name = false := by rw [hname]; rfl
    have hmut : ∀ c, commandName node.name = some c →
        ¬(c = "import" ∨ c = "template" ∨ c = "include") := by
      intro c hc
      rw [hname] at hc
      have hfor : commandName "@for" = some "for" := rfl
      have hcd : c = "for" := Option.some.inj (hc.symm.trans hfor)
      rw [hcd]
      decide
    exact emitNode1Go_state _ em node out em' hdol hmut h
  · intro fuel em node out em' c t hc h1 h2 h3 _ h
    have hc' : commandName node.name = some c := hc
    have hdol := startsWithDollar_of_command hc'
    have hmut : ∀ d, commandName node.name = some d →
        ¬(d = "import" ∨ d = "template" ∨ d = "include") := by
      intro d hd
      have hdc : d = c := Option.some.inj (hd.symm.trans hc')
      rw [hdc]
      intro hor
      rcases hor with h' | h' | h'
      · exact h1 h'
      · exact h2 h'
      · exact h3 h'
    exact emitNode1Go_state _ em node out em' hdol hmut h
  · intro fuel em node out em' hc hdol h
    have hc' : commandName node.name = none := hc
    have hmut : ∀ d, commandName node.name = some d →
        ¬(d = "import" ∨ d = "template" ∨ d = "include") := by
      intro d hd
      rw [hc'] at hd
      cases hd
    exact emitNode1Go_state _ em node out em' hdol hmut h

/-- A template fixture for the C8 witness: `greet` as registered from
`tDefGreet`. -/
def greetTemplate : Template where
  node := .mk "@template" [⟨none, .str "greet"⟩] ""
    (some (.ofList [.mk "p" [⟨none, .str "Hello, $name!"⟩] "" none]))
  usesChildren := false
  params := []

/-- The default emitter with `greet` registered. -/
def emGreet : TEmitter :=
  { defaultEmitter with templates := [("greet", greetTemplate)] }

/-- The emitter left behind by the `@for` step of the C8 witness. -/
def c8AfterFor : TEmitter :=
  match emitNode1 10 defaultEmitter forLitA with
  | .ok r => r.2
  | .error _ => defaultEmitter

/-- The emitter left behind by the template-call step of the C8
witness. -/
def c8AfterTpl : TEmitter :=
  match emitNode1 10 emGreet callGreet0 with
  | .ok r => r.2
  | .error _ => defaultEmitter

/-- The emitter left behind by the plain-tag step of the C8 witness. -/
def c8AfterTag : TEmitter :=
  match emitNode1 5 defaultEmitter pOfX with
  | .ok r => r.2
  | .error _ => emGreet

/-- Witness for C8: the three nested constructs leave their emitters
untouched on concrete runs. -/
theorem C8_scope_isolation_witness :
    c8AfterFor = defaultEmitter
    ∧ c8AfterTpl = emGreet
    ∧ c8AfterTag = defaultEmitter :=
  ⟨C8_scope_isolation.1 10 defaultEmitter forLitA "<span>a</span>\n"
     c8AfterFor rfl rfl,
   C8_scope_isolation.2.1 10 emGreet callGreet0 "<p>Hello, !</p>\n"
     c8AfterTpl "greet" greetTemplate rfl (by decide) (by decide) (by decide)
     rfl rfl,
   C8_scope_isolation.2.2.1 5 defaultEmitter pOfX "<p></p>\n"
     c8AfterTag rfl rfl rfl⟩

/-- The default emitter carrying the single binding `x ↦ "1"`. -/
def emWithX : TEmitter := { defaultEmitter with vars := [("x", "1")] }

/-- C9 counterexample: bindings survive the end of a top-level `emit`.
Emitting the one-node document `$x "1"` on a fresh default emitter
completes and leaves `x ↦ "1"` in the instance's environment, and a
second, independent `emit` on that same instance still sees the binding
(`p "$x"` renders `<p>1</p>`), contradicting the claim that the
environment is reset to empty between builds: `emit` never clears it. -/
theorem C9_counterexample :
    emitNodes 5 defaultEmitter (.ofList [varNodeX]) = .ok ("", emWithX)
    ∧ (emitNodes 5 emWithX (.ofList [pOfX])).map Prod.fst = .ok "<p>1</p>\n" :=
  ⟨rfl, rfl⟩

/-- The emitter as extended by the variable node of `C9_amended`. -/
def emBound (em : TEmitter) (name : String) (val : KValue) : TEmitter :=
  { em with vars := varInsert em.vars (stringTail name) (expandValue em.vars val) }

/-- C9 amended: within one build the environment is not cleared between
siblings — a variable node binds and the remaining siblings are emitted
under the extended environment — and it is also *not* reset between
top-level `emit` calls on the same instance: bindings persist until the
caller explicitly invokes `clear`, which empties the variable map (so a
subsequent build sees no earlier binding). -/
theorem C9_amended :
    (∀ (fuel : Nat) (em : TEmitter) (name ld : String) (val : KValue)
       (rest : KNodes),
      startsWithDollar name = true →
      emitNodes (fuel + 1) em (.cons (.mk name [⟨none, val⟩] ld none) rest)
        = emitNodes (fuel + 1) (emBound em name val) rest)
    ∧ (∀ em : TEmitter, (clearEmitter em).vars = [])
    ∧ (emitNodes 5 (clearEmitter emWithX) (.ofList [pOfX])).map Prod.fst
      = .ok "<p></p>\n" := by
  refine ⟨?_, fun _ => rfl, rfl⟩
  intro fuel em name ld val rest h
  have hstep : emitNode1Go (emitRec fuel) em (.mk name [⟨none, val⟩] ld none)
      = .ok ("", emBound em name val) := by
    unfold emitNode1Go
    simp [nodeGet0, nodeArgs, KNode.entries, KNode.name, h, emBound]
  show goNodes (emitNode1Go (emitRec fuel)) em
      (.cons (.mk name [⟨none, val⟩] ld none) rest) = _
  rw [goNodes, hstep]
  have key : ∀ (x : Except EmitErr (String × TEmitter)),
      Except.bind x (fun q => Except.ok ("" ++ q.1, q.2)) = x := by
    intro x
    cases x with
    | error e => rfl
    | ok r =>
      show Except.ok ("" ++ r.1, r.2) = Except.ok r
      rw [string_empty_append]
  show Except.bind (goNodes (emitNode1Go (emitRec fuel)) (emBound em name val) rest)
      (fun q => Except.ok ("" ++ q.1, q.2)) = _
  rw [key]
  rfl

/-- Witness for C9 at the concrete document `$x "1"; p "$x"`. -/
theorem C9_amended_witness :
    emitNodes 5 defaultEmitter (.cons varNodeX (.cons pOfX .nil))
      = emitNodes 5 (emBound defaultEmitter "$x" (.str "1"))
          (.cons pOfX .nil) :=
  C9_amended.1 4 defaultEmitter "$x" "" (.str "1") (.cons pOfX .nil) rfl

/-- C10: inside the attribute loop of `emit_tag`, every entry — keyed or
positional — whose environment-expanded value is the empty string is
omitted entirely: deleting such an entry from the entry list leaves the
rendered attribute text unchanged (no space, no name, no quotes).  The
closed conjunct shows `div id="" "$u" "x"` (with `$u` unbound) rendering
as `<div>x</div>` with both empty-expanding attribute entries leaving no
trace. -/
theorem C10_empty_attribute_omitted (v : Vars) (pre post : List KEntry)
    (e : KEntry) (h : expandValue v e.value = "") :
    attrsString v (pre ++ e :: post) = attrsString v (pre ++ post)
    ∧ emitTag 5 defaultEmitter divSuppressed "div" "" = .ok "<div>x</div>\n" := by
  refine ⟨?_, rfl⟩
  induction pre with
  | nil =>
    show attrsString v (e :: post) = attrsString v post
    rw [attrsString, h]
    simp
  | cons a pre ih =>
    show attrsString v (a :: (pre ++ e :: post)) = attrsString v (a :: (pre ++ post))
    rw [attrsString, attrsString, ih]

/-- Witness for C10: dropping the empty-expanding keyed entry `id=""` in
front of a non-empty entry changes nothing. -/
theorem C10_empty_attribute_omitted_witness :
    attrsString [] ([] ++ ⟨some "id", .str ""⟩ :: [⟨none, .str "x"⟩])
      = attrsString [] ([] ++ [⟨none, .str "x"⟩])
    ∧ emitTag 5 defaultEmitter divSuppressed "div" "" = .ok "<div>x</div>\n" :=
  C10_empty_attribute_omitted [] [] [⟨none, .str "x"⟩] ⟨some "id", .str ""⟩ rfl

end Htmeta
